import Mathlib

/-!
Verification of the static code analyzer (`app/services/code_analyzer.py`).

The analyzer parses a Python snippet with `ast.parse` and runs five
independent checkers over the resulting tree and the raw text, accumulating
`Suggestion` records.  The parser itself is CPython's (external to the
repository), so `analyze` is embedded as a function of the parse *outcome*
(`Except SyntaxErrorInfo Ast`) together with the raw snippet text.

The `Ast` type below embeds the fragment of Python's `ast` node language that
the analyzer inspects (plus enough expression forms to express the concrete
programs used in the theorems).  `walk` enumerates a node and all of its
descendants; CPython's `ast.walk` documents the traversal order as
unspecified, and no checker's output depends on the relative order of two
distinct nodes, so a pre-order enumeration is used.  The intermediate
`arguments` node of a `FunctionDef` is flattened away: the analyzer only ever
reads `node.args.defaults`, and the `arguments` node itself matches no
`isinstance` test in the source.  Operator tags (`ast.Add`, `ast.And`, ...)
are embedded as plain enumerations rather than tree nodes: CPython's walk
visits them, but they match no `isinstance` test in any checker.
All character-class tests (`str.isupper`, regex `[a-z]`, `\w`, `\s`, ...)
are modelled at ASCII scope, which covers every string the analyzer builds
and every identifier used in the theorems.
-/

/-- Output record of the analyzer (`app/models/suggestion.py`).  `line` and
`suggested_fix` are the two optional fields. -/
structure Suggestion where
  type : String
  severity : String
  message : String
  line : Option Nat := none
  suggested_fix : Option String := none
deriving DecidableEq

/-- Binary-operator tag of an augmented assignment (`ast.Add`, `ast.Sub`, ...).
Only `add` is ever tested by the analyzer (`isinstance(child.op, ast.Add)`). -/
inductive PyOp where
  | add
  | sub
  | mult
  | div
deriving DecidableEq

/-- Boolean-combination operator tag (`ast.And` / `ast.Or`). -/
inductive PyBoolOp where
  | boolAnd
  | boolOr
deriving DecidableEq

/-- The fragment of Python's `ast` node language the analyzer inspects.
`lineno` / `end_lineno` carry the source positions that `ast.parse` attaches
to every statement node. -/
inductive Ast where
  | module (body : List Ast)
  | functionDef (name : String) (defaults : List Ast) (body : List Ast)
      (lineno : Nat) (end_lineno : Nat)
  | classDef (name : String) (body : List Ast) (lineno : Nat)
  | returnStmt (value : Option Ast) (lineno : Nat)
  | assign (targets : List Ast) (value : Ast) (lineno : Nat)
  | augAssign (target : Ast) (op : PyOp) (value : Ast) (lineno : Nat)
  | forStmt (target : Ast) (iter : Ast) (body : List Ast) (orelse : List Ast)
      (lineno : Nat)
  | whileStmt (test : Ast) (body : List Ast) (orelse : List Ast) (lineno : Nat)
  | ifStmt (test : Ast) (body : List Ast) (orelse : List Ast) (lineno : Nat)
  | tryStmt (body : List Ast) (handlers : List Ast) (orelse : List Ast)
      (finalbody : List Ast) (lineno : Nat)
  | exceptHandler (type : Option Ast) (body : List Ast) (lineno : Nat)
  | globalStmt (names : List String) (lineno : Nat)
  | exprStmt (value : Ast) (lineno : Nat)
  | passStmt (lineno : Nat)
  | boolOp (op : PyBoolOp) (values : List Ast)
  | compare (left : Ast) (comparators : List Ast)
  | call (func : Ast) (args : List Ast)
  | constant (value : String)
  | attr (value : Ast) (attrName : String)
  | name (id : String)
  | listLit (elts : List Ast)
  | dictLit (keys : List Ast) (values : List Ast)
  | setLit (elts : List Ast)

/-- `concatMap f l` concatenates `f` applied to each element of `l`
(the shape of a checker that appends suggestions while iterating). -/
def concatMap (f : α → List β) : List α → List β
  | [] => []
  | a :: l => f a ++ concatMap f l

mutual

/-- `ast.walk node`: the node itself together with all of its descendants.
CPython documents the order as unspecified; pre-order is used here. -/
def walk : Ast → List Ast
  | .module body => .module body :: walkList body
  | .functionDef nm ds b l e => .functionDef nm ds b l e :: (walkList ds ++ walkList b)
  | .classDef nm b l => .classDef nm b l :: walkList b
  | .returnStmt v l => .returnStmt v l :: walkOpt v
  | .assign ts v l => .assign ts v l :: (walkList ts ++ walk v)
  | .augAssign t o v l => .augAssign t o v l :: (walk t ++ walk v)
  | .forStmt t it b oe l => .forStmt t it b oe l :: (walk t ++ walk it ++ walkList b ++ walkList oe)
  | .whileStmt te b oe l => .whileStmt te b oe l :: (walk te ++ walkList b ++ walkList oe)
  | .ifStmt te b oe l => .ifStmt te b oe l :: (walk te ++ walkList b ++ walkList oe)
  | .tryStmt b h oe fb l => .tryStmt b h oe fb l :: (walkList b ++ walkList h ++ walkList oe ++ walkList fb)
  | .exceptHandler t b l => .exceptHandler t b l :: (walkOpt t ++ walkList b)
  | .globalStmt ns l => [.globalStmt ns l]
  | .exprStmt v l => .exprStmt v l :: walk v
  | .passStmt l => [.passStmt l]
  | .boolOp o vs => .boolOp o vs :: walkList vs
  | .compare le cs => .compare le cs :: (walk le ++ walkList cs)
  | .call f as => .call f as :: (walk f ++ walkList as)
  | .constant v => [.constant v]
  | .attr v a => .attr v a :: walk v
  | .name i => [.name i]
  | .listLit es => .listLit es :: walkList es
  | .dictLit ks vs => .dictLit ks vs :: (walkList ks ++ walkList vs)
  | .setLit es => .setLit es :: walkList es

/-- `walk` extended over a list of sibling nodes. -/
def walkList : List Ast → List Ast
  | [] => []
  | a :: r => walk a ++ walkList r

/-- `walk` extended over an optional child node. -/
def walkOpt : Option Ast → List Ast
  | none => []
  | some a => walk a

end

/-! ### ASCII string helpers mirroring the Python string operations used -/

/-- A cased character (ASCII scope), as used by `str.isupper` / `str.islower`. -/
def isCasedChar (c : Char) : Bool := c.isUpper || c.isLower

/-- `str.isupper`: at least one cased character and no lowercase one. -/
def pyIsUpper (s : String) : Bool :=
  s.data.any isCasedChar && s.data.all (fun c => !(c.isLower))

/-- `str.islower`: at least one cased character and no uppercase one. -/
def pyIsLower (s : String) : Bool :=
  s.data.any isCasedChar && s.data.all (fun c => !(c.isUpper))

/-- Boolean prefix test on character lists. -/
def isPrefixCharsB : List Char → List Char → Bool
  | [], _ => true
  | _ :: _, [] => false
  | a :: as, b :: bs => a == b && isPrefixCharsB as bs

/-- `sub in l` (contiguous substring test), as Python's `in` on strings. -/
def hasInfixChars (sub : List Char) : List Char → Bool
  | [] => isPrefixCharsB sub []
  | a :: rest => isPrefixCharsB sub (a :: rest) || hasInfixChars sub rest

/-- `sub in s` on strings. -/
def containsStr (s sub : String) : Bool := hasInfixChars sub.data s.data

/-- `str.startswith`. -/
def pyStartsWith (s pre : String) : Bool := isPrefixCharsB pre.data s.data

/-- Membership of a character in a string's characters (`'_' in name`). -/
def containsChar (l : List Char) (c : Char) : Bool := l.any (fun d => d == c)

/-- Python's whitespace class (`str.strip`, regex `\s`), ASCII scope. -/
def isPySpaceChar (c : Char) : Bool :=
  c == ' ' || c == '\t' || c == '\n' || c == '\r' || c == '\x0b' || c == '\x0c'

/-- Regex `\w` (ASCII scope): letters, digits and underscore. -/
def isWordChar (c : Char) : Bool := c.isAlphanum || c == '_'

/-- `re.match(r'^[a-z_][a-z0-9_]*$', s)` succeeds.  (`$` additionally matches
before a final newline in Python, which cannot occur in an identifier.) -/
def matchesSnakeCase (s : String) : Bool :=
  match s.data with
  | [] => false
  | c :: rest => (c.isLower || c == '_') && rest.all (fun d => d.isLower || d.isDigit || d == '_')

/-- `re.match(r'^[A-Z][a-zA-Z0-9]*$', s)` succeeds. -/
def matchesPascalCase (s : String) : Bool :=
  match s.data with
  | [] => false
  | c :: rest => c.isUpper && rest.all (fun d => d.isAlpha || d.isDigit)

/-- `re.sub(r'(?<!^)(?=[A-Z])', '_', name).lower()`: insert `_` before every
non-initial uppercase letter, then lowercase everything. -/
def snake_case_name (s : String) : String :=
  String.mk (match s.data with
    | [] => []
    | c :: rest =>
      c.toLower :: concatMap (fun d => if d.isUpper then ['_', d.toLower] else [d.toLower]) rest)

/-- Separator class of `re.split(r'[_\s]+', name)`. -/
def isSplitSepChar (c : Char) : Bool := c == '_' || isPySpaceChar c

/-- `re.split(r'[_\s]+', name)`: split on maximal runs of separators
(empty fields appear only at the two ends, as with `re.split`). -/
def splitSepRuns : List Char → List (List Char)
  | [] => [[]]
  | c :: rest =>
    if isSplitSepChar c then
      match rest with
      | [] => [[], []]
      | d :: _ => if isSplitSepChar d then splitSepRuns rest else [] :: splitSepRuns rest
    else
      match splitSepRuns rest with
      | [] => [[c]]
      | f :: fs => (c :: f) :: fs

/-- `str.capitalize`: first character uppercased, the rest lowercased. -/
def pyCapitalizeChars : List Char → List Char
  | [] => []
  | c :: rest => c.toUpper :: rest.map Char.toLower

/-- `''.join(word.capitalize() for word in re.split(r'[_\s]+', name))`. -/
def pascal_case_name (s : String) : String :=
  String.mk (concatMap pyCapitalizeChars (splitSepRuns s.data))

/-- `str.split(sep)` for a one-character separator. -/
def splitOnChar (sep : Char) : List Char → List (List Char)
  | [] => [[]]
  | c :: rest =>
    let r := splitOnChar sep rest
    if c == sep then [] :: r
    else
      match r with
      | [] => [[c]]
      | f :: fs => (c :: f) :: fs

/-- `str.rstrip()`. -/
def pyRstripChars (l : List Char) : List Char :=
  (l.reverse.dropWhile isPySpaceChar).reverse

/-- `str.lstrip()`. -/
def pyLstripChars (l : List Char) : List Char := l.dropWhile isPySpaceChar

/-- `str.strip()`. -/
def pyStripChars (l : List Char) : List Char := pyRstripChars (pyLstripChars l)

/-- `'\n'.join(...)` over character-list fragments. -/
def joinLinesWithNewline : List (List Char) → List Char
  | [] => []
  | [s] => s
  | s :: rest => s ++ '\n' :: joinLinesWithNewline rest

/-- `enumerate(lines, start)`. -/
def enumerateFrom (i : Nat) : List (List Char) → List (Nat × List Char)
  | [] => []
  | l :: rest => (i, l) :: enumerateFrom (i + 1) rest

/-! ### Suggestion builders (the literal `Suggestion(...)` records the source constructs) -/

/-- Function-naming suggestion (`_check_naming_conventions`, function branch). -/
def fnNamingSugg (nm : String) (lineno : Nat) : Suggestion :=
  { type := "style", severity := "medium",
    message := "Function '" ++ nm ++ "' should use snake_case naming (PEP 8)",
    line := some lineno,
    suggested_fix := some ("def " ++ snake_case_name nm ++ "(") }

/-- Class-naming suggestion (`_check_naming_conventions`, class branch). -/
def clsNamingSugg (nm : String) (lineno : Nat) : Suggestion :=
  { type := "style", severity := "medium",
    message := "Class '" ++ nm ++ "' should use PascalCase naming (PEP 8)",
    line := some lineno,
    suggested_fix := some ("class " ++ pascal_case_name nm ++ ":") }

/-- Single-letter-variable suggestion (`_check_naming_conventions`, assign branch). -/
def readabilitySugg (nm : String) (lineno : Nat) : Suggestion :=
  { type := "readability", severity := "low",
    message := "Consider using a more descriptive name instead of '" ++ nm ++ "'",
    line := some lineno,
    suggested_fix := some "descriptive_name = ..." }

/-- High-cyclomatic-complexity suggestion (`_check_code_complexity`). -/
def highComplexitySugg (nm : String) (c : Int) (lineno : Nat) : Suggestion :=
  { type := "complexity", severity := "high",
    message := "Function '" ++ nm ++ "' has high complexity (" ++ toString c ++ "). Consider refactoring.",
    line := some lineno }

/-- Over-long-function suggestion (`_check_code_complexity`). -/
def longFunctionSugg (nm : String) (len : Int) (lineno : Nat) : Suggestion :=
  { type := "complexity", severity := "medium",
    message := "Function '" ++ nm ++ "' is too long (" ++ toString len ++ " lines). Consider breaking it down.",
    line := some lineno }

/-- Bare-except suggestion (`_check_best_practices`). -/
def bareExceptSugg (lineno : Nat) : Suggestion :=
  { type := "best_practice", severity := "high",
    message := "Avoid bare 'except:' clauses. Specify exception types.",
    line := some lineno,
    suggested_fix := some "except Exception as e:" }

/-- Mutable-default-argument suggestion (`_check_best_practices`). -/
def mutableDefaultSugg (nm : String) (lineno : Nat) : Suggestion :=
  { type := "best_practice", severity := "high",
    message := "Avoid mutable default arguments in function '" ++ nm ++ "'. Use None instead.",
    line := some lineno,
    suggested_fix := some "def function_name(param=None):\n    if param is None:\n        param = []" }

/-- Global-statement suggestion (`_check_best_practices`). -/
def globalStmtSugg (lineno : Nat) : Suggestion :=
  { type := "best_practice", severity := "medium",
    message := "Avoid using 'global'. Consider using function parameters or class attributes.",
    line := some lineno,
    suggested_fix := some "# Pass value as parameter instead:\ndef function(parameter):\n    return parameter" }

/-- In-loop concatenation suggestion (`_check_performance_issues`). -/
def loopConcatSugg (lineno : Nat) : Suggestion :=
  { type := "performance", severity := "medium",
    message := "String concatenation in loop detected. Consider using join() or list comprehension.",
    line := some lineno,
    suggested_fix := some "# Use join instead:\nresult = ''.join(items)\n# or list comprehension:\nresult = ''.join([str(item) for item in items])" }

/-- Over-long-line suggestion (`_check_style_issues`). -/
def longLineSugg (i : Nat) : Suggestion :=
  { type := "style", severity := "low",
    message := "Line exceeds 120 characters (PEP 8 recommends max 79-120)",
    line := some i }

/-- Trailing-whitespace suggestion (`_check_style_issues`). -/
def trailingWsSugg (i : Nat) (line : List Char) : Suggestion :=
  { type := "style", severity := "low",
    message := "Trailing whitespace detected",
    line := some i,
    suggested_fix := some (String.mk (pyRstripChars line)) }

/-! ### The regex machinery of the missing-spaces style check -/

/-- `re.search(r'\w=[^=\s]|[^=\s]=\w', line)` succeeds: some three-character
window is `word '=' nonEqNonSpace` or `nonEqNonSpace '=' word`. -/
def eqPatternSearch : List Char → Bool
  | a :: b :: c :: rest =>
    (b == '=' &&
      ((isWordChar a && !(c == '=') && !(isPySpaceChar c)) ||
       (!(a == '=') && !(isPySpaceChar a) && isWordChar c))) ||
    eqPatternSearch (b :: c :: rest)
  | _ => false

/-- `re.sub(r'(\w)=([^=\s])', r'\1 = \2', line)`: every non-overlapping match,
left to right, gets spaces inserted around the `=`. -/
def subEqPat1 : List Char → List Char
  | a :: '=' :: c :: rest =>
    if isWordChar a && !(c == '=') && !(isPySpaceChar c) then
      a :: ' ' :: '=' :: ' ' :: c :: subEqPat1 rest
    else
      a :: subEqPat1 ('=' :: c :: rest)
  | a :: rest => a :: subEqPat1 rest
  | [] => []

/-- `re.sub(r'([^=\s])=(\w)', r'\1 = \2', line)`. -/
def subEqPat2 : List Char → List Char
  | a :: '=' :: c :: rest =>
    if !(a == '=') && !(isPySpaceChar a) && isWordChar c then
      a :: ' ' :: '=' :: ' ' :: c :: subEqPat2 rest
    else
      a :: subEqPat2 ('=' :: c :: rest)
  | a :: rest => a :: subEqPat2 rest
  | [] => []

/-- Missing-spaces-around-`=` suggestion (`_check_style_issues`); the fix is
the doubly-substituted line, stripped. -/
def missingSpacesSugg (i : Nat) (line : List Char) : Suggestion :=
  { type := "style", severity := "low",
    message := "Missing spaces around assignment operator (PEP 8)",
    line := some i,
    suggested_fix := some (String.mk (pyStripChars (subEqPat2 (subEqPat1 line)))) }

/-- Multiple-statements-on-one-line suggestion (`_check_style_issues`):
the fix joins the non-empty stripped `;`-separated fragments with newlines. -/
def multiStatementSugg (i : Nat) (line : List Char) : Suggestion :=
  { type := "style", severity := "medium",
    message := "Avoid multiple statements on one line (PEP 8)",
    line := some i,
    suggested_fix := some (String.mk (joinLinesWithNewline
      (((splitOnChar ';' line).map pyStripChars).filter (fun s => !s.isEmpty)))) }

/-- The syntax-error suggestion of the parse-failure branch of `analyze`;
`text` embeds `str(e)` and `lineno` is present when the exception carries one. -/
structure SyntaxErrorInfo where
  text : String
  lineno : Option Nat
deriving DecidableEq

/-- `Suggestion(type="syntax", severity="high", ...)` built in `analyze`'s
`except SyntaxError` branch. -/
def syntaxErrorSugg (e : SyntaxErrorInfo) : Suggestion :=
  { type := "syntax", severity := "high",
    message := "Syntax error: " ++ e.text,
    line := e.lineno }

/-! ### The five checkers -/

/-- Per-target emission of the assign branch of `_check_naming_conventions`:
all-caps multi-character names pass; single lowercase letters without
underscore get a readability suggestion. -/
def namingSuggsTarget (lineno : Nat) (target : Ast) : List Suggestion :=
  match target with
  | .name nm =>
    if pyIsUpper nm && nm.length > 1 then []
    else if !(containsChar nm.data '_') && pyIsLower nm && nm.length == 1 then
      [readabilitySugg nm lineno]
    else []
  | _ => []

/-- Per-node emission of `_check_naming_conventions`. -/
def namingSuggs (n : Ast) : List Suggestion :=
  match n with
  | .functionDef nm _ _ l _ =>
    if !(matchesSnakeCase nm) && !(pyStartsWith nm "__") then [fnNamingSugg nm l] else []
  | .classDef nm _ l =>
    if !(matchesPascalCase nm) then [clsNamingSugg nm l] else []
  | .assign ts _ l => concatMap (namingSuggsTarget l) ts
  | _ => []

/-- `_check_naming_conventions` (the `code` argument is unused in the source). -/
def check_naming_conventions (tree : Ast) (code : String) : List Suggestion :=
  concatMap namingSuggs (walk tree)

/-- Complexity contribution of one walked node in `_calculate_complexity`. -/
def complexityContrib (child : Ast) : Int :=
  match child with
  | .ifStmt _ _ _ _ => 1
  | .whileStmt _ _ _ _ => 1
  | .forStmt _ _ _ _ _ => 1
  | .exceptHandler _ _ _ => 1
  | .boolOp _ vs => (vs.length : Int) - 1
  | _ => 0

/-- `_calculate_complexity`: 1 plus the contributions of every node of the
subtree (the walk includes the function node itself, which contributes 0). -/
def calculate_complexity (node : Ast) : Int :=
  1 + ((walk node).map complexityContrib).sum

/-- Per-node emission of `_check_code_complexity`: the high-complexity
suggestion (complexity > 10) followed by the long-function suggestion
(`end_lineno - lineno > 50`; `end_lineno` is always present on parsed trees,
so the `hasattr` guard always holds). -/
def complexitySuggs (n : Ast) : List Suggestion :=
  match n with
  | .functionDef nm ds b l e =>
    (if calculate_complexity (.functionDef nm ds b l e) > 10 then
       [highComplexitySugg nm (calculate_complexity (.functionDef nm ds b l e)) l]
     else []) ++
    (if (e : Int) - (l : Int) > 50 then
       [longFunctionSugg nm ((e : Int) - (l : Int)) l]
     else [])
  | _ => []

/-- `_check_code_complexity`. -/
def check_code_complexity (tree : Ast) : List Suggestion :=
  concatMap complexitySuggs (walk tree)

/-- A mutable-literal default (`isinstance(default, (ast.List, ast.Dict, ast.Set))`). -/
def isMutableLiteral (d : Ast) : Bool :=
  match d with
  | .listLit _ => true
  | .dictLit _ _ => true
  | .setLit _ => true
  | _ => false

/-- Per-node emission of `_check_best_practices`. -/
def bestPracticeSuggs (n : Ast) : List Suggestion :=
  match n with
  | .exceptHandler none _ l => [bareExceptSugg l]
  | .functionDef nm ds _ l _ =>
    concatMap (fun d => if isMutableLiteral d then [mutableDefaultSugg nm l] else []) ds
  | .globalStmt _ l => [globalStmtSugg l]
  | _ => []

/-- `_check_best_practices` (the `code` argument is unused in the source). -/
def check_best_practices (tree : Ast) (code : String) : List Suggestion :=
  concatMap bestPracticeSuggs (walk tree)

/-- An augmented `+=` assignment targeting a simple variable
(`isinstance(child, ast.AugAssign)` with `ast.Add` op and `ast.Name` target). -/
def isAugAddToName (child : Ast) : Bool :=
  match child with
  | .augAssign (.name _) PyOp.add _ _ => true
  | _ => false

/-- Per-node emission of `_check_performance_issues`: one suggestion per
`for`/`while` node whose subtree contains a matching augmented assignment
(the inner scan `break`s after the first match, so at most one per loop).
The `append`-call branch of the source only `pass`es and emits nothing. -/
def perfSuggs (n : Ast) : List Suggestion :=
  match n with
  | .forStmt t it b oe l =>
    if (walk (.forStmt t it b oe l)).any isAugAddToName then [loopConcatSugg l] else []
  | .whileStmt te b oe l =>
    if (walk (.whileStmt te b oe l)).any isAugAddToName then [loopConcatSugg l] else []
  | _ => []

/-- `_check_performance_issues` (the `code` argument is unused in the source). -/
def check_performance_issues (tree : Ast) (code : String) : List Suggestion :=
  concatMap perfSuggs (walk tree)

/-- `any(x in line for x in ['==', '!=', '<=', '>=', '+=', '-=', '*=', '/='])`:
the line contains some two-character comparison/augmented operator anywhere. -/
def lineHasCompoundOp (line : List Char) : Bool :=
  hasInfixChars ['=', '='] line || hasInfixChars ['!', '='] line ||
  hasInfixChars ['<', '='] line || hasInfixChars ['>', '='] line ||
  hasInfixChars ['+', '='] line || hasInfixChars ['-', '='] line ||
  hasInfixChars ['*', '='] line || hasInfixChars ['/', '='] line

/-- Per-line emission of `_check_style_issues`, in source order: line length,
trailing whitespace, missing spaces around `=`, multiple statements. -/
def styleLineSuggs (p : Nat × List Char) : List Suggestion :=
  (if p.2.length > 120 then [longLineSugg p.1] else []) ++
  (if (match p.2.getLast? with | some d => d == ' ' || d == '\t' | none => false) then
     [trailingWsSugg p.1 p.2]
   else []) ++
  (if containsChar p.2 '=' && !(lineHasCompoundOp p.2) then
     (if eqPatternSearch p.2 then [missingSpacesSugg p.1 p.2] else [])
   else []) ++
  (if containsChar p.2 ';' &&
      !(match pyStripChars p.2 with | c :: _ => c == '#' | [] => false) then
     [multiStatementSugg p.1 p.2]
   else [])

/-- `_check_style_issues`: the per-line checks over `code.split('\n')`,
lines numbered from 1. -/
def check_style_issues (code : String) : List Suggestion :=
  concatMap styleLineSuggs (enumerateFrom 1 (splitOnChar '\n' code.data))

/-- The checker pipeline run on a successfully parsed tree
(lines 50-54 of `analyze`). -/
def runChecks (tree : Ast) (code_snippet : String) : List Suggestion :=
  check_naming_conventions tree code_snippet ++
  check_code_complexity tree ++
  check_best_practices tree code_snippet ++
  check_performance_issues tree code_snippet ++
  check_style_issues code_snippet

/-- The analyzer object: its only instance state is the suggestion list. -/
structure CodeAnalyzer where
  suggestions : List Suggestion := []

/-- `CodeAnalyzer.analyze`: resets `self.suggestions` to a fresh empty list,
then either emits the single syntax suggestion and returns, or runs the five
checkers; the final accumulator is returned (and left on the instance). -/
def CodeAnalyzer.analyze (self : CodeAnalyzer) (parse_result : Except SyntaxErrorInfo Ast)
    (code_snippet : String) : CodeAnalyzer × List Suggestion :=
  let fresh : CodeAnalyzer := { suggestions := [] }
  match parse_result with
  | .error e =>
    let done : CodeAnalyzer := { suggestions := fresh.suggestions ++ [syntaxErrorSugg e] }
    (done, done.suggestions)
  | .ok tree =>
    let done : CodeAnalyzer := { suggestions := fresh.suggestions ++ runChecks tree code_snippet }
    (done, done.suggestions)

/-- The caller-visible analysis function: `analyze` on a fresh analyzer.
Since `ast.parse` is CPython's (external to the repository), the parse
outcome is an explicit argument alongside the raw text. -/
def analyze (parse_result : Except SyntaxErrorInfo Ast) (code_snippet : String) :
    List Suggestion :=
  (CodeAnalyzer.analyze { suggestions := [] } parse_result code_snippet).2

/-! ### Basic lemmas about `concatMap` and the substring helpers -/

theorem mem_concatMap {f : α → List β} {b : β} :
    ∀ {l : List α}, b ∈ concatMap f l ↔ ∃ a ∈ l, b ∈ f a := by
  intro l
  induction l with
  | nil => simp [concatMap]
  | cons a t ih => simp [concatMap, List.mem_append, ih]

theorem filter_concatMap (p : β → Bool) (f : α → List β) :
    ∀ l : List α, (concatMap f l).filter p = concatMap (fun a => (f a).filter p) l := by
  intro l
  induction l with
  | nil => rfl
  | cons a t ih => simp [concatMap, List.filter_append, ih]

theorem concatMap_congr {f g : α → List β} (h : ∀ a, f a = g a) :
    ∀ l : List α, concatMap f l = concatMap g l := by
  intro l
  induction l with
  | nil => rfl
  | cons a t ih => simp [concatMap, h a, ih]

theorem isPrefixCharsB_self_append : ∀ t q : List Char, isPrefixCharsB t (t ++ q) = true := by
  intro t q
  induction t with
  | nil => rfl
  | cons c t ih => simp [isPrefixCharsB, ih]

theorem hasInfixChars_of_isPrefix {sub l : List Char} (h : isPrefixCharsB sub l = true) :
    hasInfixChars sub l = true := by
  cases l with
  | nil => simpa [hasInfixChars] using h
  | cons a rest => simp [hasInfixChars, h]

theorem hasInfixChars_append_left {sub l : List Char} (p : List Char)
    (h : hasInfixChars sub l = true) : hasInfixChars sub (p ++ l) = true := by
  induction p with
  | nil => simpa using h
  | cons a t ih => simp [hasInfixChars, ih]

theorem hasInfixChars_middle (p t q : List Char) : hasInfixChars t (p ++ (t ++ q)) = true :=
  hasInfixChars_append_left p (hasInfixChars_of_isPrefix (isPrefixCharsB_self_append t q))

theorem hasInfixChars_suffix (p t : List Char) : hasInfixChars t (p ++ t) = true := by
  have h := hasInfixChars_middle p t []
  simpa using h

/-! ### Shape of the suggestions each checker can emit -/

theorem mem_namingSuggsTarget {s : Suggestion} {l : Nat} {t : Ast}
    (h : s ∈ namingSuggsTarget l t) : ∃ nm, s = readabilitySugg nm l := by
  cases t <;> simp only [namingSuggsTarget] at h <;> try exact absurd h (List.not_mem_nil s)
  case name nm =>
    split at h
    · exact absurd h (List.not_mem_nil s)
    · split at h
      · exact ⟨nm, List.mem_singleton.mp h⟩
      · exact absurd h (List.not_mem_nil s)

theorem mem_namingSuggs {s : Suggestion} {n : Ast} (h : s ∈ namingSuggs n) :
    (∃ nm l, s = fnNamingSugg nm l) ∨ (∃ nm l, s = clsNamingSugg nm l) ∨
    (∃ nm l, s = readabilitySugg nm l) := by
  cases n <;> simp only [namingSuggs] at h <;> try exact absurd h (List.not_mem_nil s)
  case functionDef nm ds b l e =>
    split at h
    · exact Or.inl ⟨nm, l, List.mem_singleton.mp h⟩
    · exact absurd h (List.not_mem_nil s)
  case classDef nm b l =>
    split at h
    · exact Or.inr (Or.inl ⟨nm, l, List.mem_singleton.mp h⟩)
    · exact absurd h (List.not_mem_nil s)
  case assign ts v l =>
    obtain ⟨t, -, ht⟩ := mem_concatMap.mp h
    obtain ⟨nm, rfl⟩ := mem_namingSuggsTarget ht
    exact Or.inr (Or.inr ⟨nm, l, rfl⟩)

theorem mem_complexitySuggs {s : Suggestion} {n : Ast} (h : s ∈ complexitySuggs n) :
    (∃ nm c l, s = highComplexitySugg nm c l) ∨ (∃ nm len l, s = longFunctionSugg nm len l) := by
  cases n <;> simp only [complexitySuggs] at h <;> try exact absurd h (List.not_mem_nil s)
  case functionDef nm ds b l e =>
    rcases List.mem_append.mp h with h1 | h2
    · split at h1
      · exact Or.inl ⟨nm, _, l, List.mem_singleton.mp h1⟩
      · exact absurd h1 (List.not_mem_nil s)
    · split at h2
      · exact Or.inr ⟨nm, _, l, List.mem_singleton.mp h2⟩
      · exact absurd h2 (List.not_mem_nil s)

theorem mem_bestPracticeSuggs {s : Suggestion} {n : Ast} (h : s ∈ bestPracticeSuggs n) :
    (∃ l, s = bareExceptSugg l) ∨ (∃ nm l, s = mutableDefaultSugg nm l) ∨
    (∃ l, s = globalStmtSugg l) := by
  cases n <;> try simp only [bestPracticeSuggs] at h
  case exceptHandler ty b l =>
    cases ty <;> simp only [bestPracticeSuggs] at h
    · exact Or.inl ⟨l, List.mem_singleton.mp h⟩
    · exact absurd h (List.not_mem_nil s)
  case functionDef nm ds b l e =>
    obtain ⟨d, -, hd⟩ := mem_concatMap.mp h
    split at hd
    · exact Or.inr (Or.inl ⟨nm, l, List.mem_singleton.mp hd⟩)
    · exact absurd hd (List.not_mem_nil s)
  case globalStmt ns l => exact Or.inr (Or.inr ⟨l, List.mem_singleton.mp h⟩)
  all_goals exact absurd h (List.not_mem_nil s)

theorem mem_perfSuggs {s : Suggestion} {n : Ast} (h : s ∈ perfSuggs n) :
    ∃ l, s = loopConcatSugg l := by
  cases n <;> simp only [perfSuggs] at h <;> try exact absurd h (List.not_mem_nil s)
  case forStmt t it b oe l =>
    split at h
    · exact ⟨l, List.mem_singleton.mp h⟩
    · exact absurd h (List.not_mem_nil s)
  case whileStmt te b oe l =>
    split at h
    · exact ⟨l, List.mem_singleton.mp h⟩
    · exact absurd h (List.not_mem_nil s)

theorem mem_styleLineSuggs {s : Suggestion} {p : Nat × List Char} (h : s ∈ styleLineSuggs p) :
    s = longLineSugg p.1 ∨ s = trailingWsSugg p.1 p.2 ∨ s = missingSpacesSugg p.1 p.2 ∨
    s = multiStatementSugg p.1 p.2 := by
  unfold styleLineSuggs at h
  rcases List.mem_append.mp h with h | h4
  · rcases List.mem_append.mp h with h | h3
    · rcases List.mem_append.mp h with h1 | h2
      · split at h1
        · exact Or.inl (List.mem_singleton.mp h1)
        · exact absurd h1 (List.not_mem_nil s)
      · split at h2
        · exact Or.inr (Or.inl (List.mem_singleton.mp h2))
        · exact absurd h2 (List.not_mem_nil s)
    · split at h3
      · split at h3
        · exact Or.inr (Or.inr (Or.inl (List.mem_singleton.mp h3)))
        · exact absurd h3 (List.not_mem_nil s)
      · exact absurd h3 (List.not_mem_nil s)
  · split at h4
    · exact Or.inr (Or.inr (Or.inr (List.mem_singleton.mp h4)))
    · exact absurd h4 (List.not_mem_nil s)

/-- The twelve record shapes a successful analysis can emit. -/
def AnalyzerEmitted (s : Suggestion) : Prop :=
  (∃ nm l, s = fnNamingSugg nm l) ∨ (∃ nm l, s = clsNamingSugg nm l) ∨
  (∃ nm l, s = readabilitySugg nm l) ∨ (∃ nm c l, s = highComplexitySugg nm c l) ∨
  (∃ nm len l, s = longFunctionSugg nm len l) ∨ (∃ l, s = bareExceptSugg l) ∨
  (∃ nm l, s = mutableDefaultSugg nm l) ∨ (∃ l, s = globalStmtSugg l) ∨
  (∃ l, s = loopConcatSugg l) ∨ (∃ i, s = longLineSugg i) ∨
  (∃ i line, s = trailingWsSugg i line) ∨
  (∃ i line, s = missingSpacesSugg i line ∨ s = multiStatementSugg i line)

theorem mem_runChecks_shape {s : Suggestion} {tree : Ast} {code : String}
    (h : s ∈ runChecks tree code) : AnalyzerEmitted s := by
  unfold runChecks at h
  unfold AnalyzerEmitted
  rcases List.mem_append.mp h with h | h5
  · rcases List.mem_append.mp h with h | h4
    · rcases List.mem_append.mp h with h | h3
      · rcases List.mem_append.mp h with h1 | h2
        · obtain ⟨n, -, hn⟩ := mem_concatMap.mp h1
          rcases mem_namingSuggs hn with h' | h' | h'
          exacts [Or.inl h', Or.inr (Or.inl h'), Or.inr (Or.inr (Or.inl h'))]
        · obtain ⟨n, -, hn⟩ := mem_concatMap.mp h2
          rcases mem_complexitySuggs hn with h' | h'
          exacts [Or.inr (Or.inr (Or.inr (Or.inl h'))),
            Or.inr (Or.inr (Or.inr (Or.inr (Or.inl h'))))]
      · obtain ⟨n, -, hn⟩ := mem_concatMap.mp h3
        rcases mem_bestPracticeSuggs hn with h' | h' | h'
        exacts [Or.inr (Or.inr (Or.inr (Or.inr (Or.inr (Or.inl h'))))),
          Or.inr (Or.inr (Or.inr (Or.inr (Or.inr (Or.inr (Or.inl h')))))),
          Or.inr (Or.inr (Or.inr (Or.inr (Or.inr (Or.inr (Or.inr (Or.inl h')))))))]
    · obtain ⟨n, -, hn⟩ := mem_concatMap.mp h4
      obtain ⟨l, rfl⟩ := mem_perfSuggs hn
      exact Or.inr (Or.inr (Or.inr (Or.inr (Or.inr (Or.inr (Or.inr (Or.inr (Or.inl ⟨l, rfl⟩))))))))
  · obtain ⟨p, -, hp⟩ := mem_concatMap.mp h5
    rcases mem_styleLineSuggs hp with h' | h' | h' | h'
    · exact Or.inr (Or.inr (Or.inr (Or.inr (Or.inr (Or.inr (Or.inr (Or.inr (Or.inr
        (Or.inl ⟨p.1, h'⟩)))))))))
    · exact Or.inr (Or.inr (Or.inr (Or.inr (Or.inr (Or.inr (Or.inr (Or.inr (Or.inr
        (Or.inr (Or.inl ⟨p.1, p.2, h'⟩))))))))))
    · exact Or.inr (Or.inr (Or.inr (Or.inr (Or.inr (Or.inr (Or.inr (Or.inr (Or.inr
        (Or.inr (Or.inr ⟨p.1, p.2, Or.inl h'⟩))))))))))
    · exact Or.inr (Or.inr (Or.inr (Or.inr (Or.inr (Or.inr (Or.inr (Or.inr (Or.inr
        (Or.inr (Or.inr ⟨p.1, p.2, Or.inr h'⟩))))))))))

/-- Every shape a successful analysis emits has a non-`syntax` type and a
present line number. -/
theorem analyzerEmitted_props {s : Suggestion} (h : AnalyzerEmitted s) :
    s.type ≠ "syntax" ∧ s.line.isSome = true := by
  rcases h with ⟨nm, l, rfl⟩ | ⟨nm, l, rfl⟩ | ⟨nm, l, rfl⟩ | ⟨nm, c, l, rfl⟩ |
    ⟨nm, len, l, rfl⟩ | ⟨l, rfl⟩ | ⟨nm, l, rfl⟩ | ⟨l, rfl⟩ | ⟨l, rfl⟩ | ⟨i, rfl⟩ |
    ⟨i, line, rfl⟩ | ⟨i, line, rfl | rfl⟩ <;>
    refine ⟨?_, rfl⟩ <;>
    simp [fnNamingSugg, clsNamingSugg, readabilitySugg, highComplexitySugg,
      longFunctionSugg, bareExceptSugg, mutableDefaultSugg, globalStmtSugg,
      loopConcatSugg, longLineSugg, trailingWsSugg, missingSpacesSugg, multiStatementSugg]

/-! ### Claim theorems -/

/-- C1: a `type=syntax` suggestion appears exactly when parsing fails; it is
then the sole (hence first) element of the result, has `severity=high`, its
message embeds the interpreter's syntax-error text, and no checker output
follows it; on a successful parse no `type=syntax` suggestion ever appears. -/
theorem analyze_syntax_suggestion_sole_and_first :
    (∀ (e : SyntaxErrorInfo) (code : String), analyze (.error e) code = [syntaxErrorSugg e]) ∧
    (∀ e : SyntaxErrorInfo, (syntaxErrorSugg e).type = "syntax" ∧
      (syntaxErrorSugg e).severity = "high" ∧
      containsStr (syntaxErrorSugg e).message e.text = true) ∧
    (∀ (tree : Ast) (code : String),
      (analyze (.ok tree) code).all (fun s => s.type != "syntax") = true) := by
  refine ⟨fun e code => rfl, fun e => ⟨rfl, rfl, ?_⟩, fun tree code => ?_⟩
  · show hasInfixChars e.text.data ("Syntax error: " ++ e.text).data = true
    rw [String.data_append]
    exact hasInfixChars_suffix _ _
  · rw [List.all_eq_true]
    intro s hs
    have h1 : s ∈ runChecks tree code := hs
    have h2 := (analyzerEmitted_props (mem_runChecks_shape h1)).1
    simpa using h2

/-- C3: `analyze` is a total function into suggestion lists — in this
embedding every code path of the pipeline is a terminating pure computation,
so no input can raise; a parse failure is reported as the embedded
`type=syntax` suggestion value, never as an exception, and the result is
always an actual list (never an absent value). -/
theorem analyze_total_never_raises :
    (∀ (parse_result : Except SyntaxErrorInfo Ast) (code : String),
      ∃ l : List Suggestion, analyze parse_result code = l) ∧
    (∀ (e : SyntaxErrorInfo) (code : String),
      analyze (.error e) code = [syntaxErrorSugg e] ∧ analyze (.error e) code ≠ []) :=
  ⟨fun parse_result code => ⟨analyze parse_result code, rfl⟩,
   fun e code => ⟨rfl, by simp [analyze, CodeAnalyzer.analyze]⟩⟩

/-- C9: `analyze` resets the instance accumulator to a fresh empty list on
every call, so its output does not depend on the analyzer's prior state, and
calling it twice in a row (second call on the instance returned by the first)
yields the identical suggestion list. -/
theorem analyze_fresh_state_idempotent :
    ∀ (a₁ a₂ : CodeAnalyzer) (parse_result : Except SyntaxErrorInfo Ast) (code : String),
      (a₁.analyze parse_result code).2 = (a₂.analyze parse_result code).2 ∧
      ((a₁.analyze parse_result code).1.analyze parse_result code).2 =
        (a₁.analyze parse_result code).2 ∧
      (a₁.analyze parse_result code).2 = analyze parse_result code := by
  intro a₁ a₂ parse_result code
  cases parse_result <;> exact ⟨rfl, rfl, rfl⟩

/-- C10: every suggestion of any analysis either is the syntax suggestion or
carries a present line number — all eleven non-syntax emission sites set
`line` to a concrete value, so only the syntax suggestion can lack one. -/
theorem analyze_nonsyntax_line_present :
    ∀ (parse_result : Except SyntaxErrorInfo Ast) (code : String),
      (analyze parse_result code).all
        (fun s => s.type == "syntax" || s.line.isSome) = true := by
  intro parse_result code
  cases parse_result with
  | error e => rfl
  | ok tree =>
    rw [List.all_eq_true]
    intro s hs
    have h1 : s ∈ runChecks tree code := hs
    have h2 := (analyzerEmitted_props (mem_runChecks_shape h1)).2
    simp [h2]

/-! ### Filter lemmas used to isolate one checker's output inside `analyze` -/

theorem filter_eq_nil_of (p : β → Bool) (l : List β) (h : ∀ s ∈ l, p s = false) :
    l.filter p = [] := by
  induction l with
  | nil => rfl
  | cons a t ih =>
    rw [List.filter_cons, h a (List.mem_cons_self a t)]
    simpa using ih fun s hs => h s (List.mem_cons_of_mem a hs)

theorem filter_eq_self_of (p : β → Bool) (l : List β) (h : ∀ s ∈ l, p s = true) :
    l.filter p = l := by
  induction l with
  | nil => rfl
  | cons a t ih =>
    rw [List.filter_cons, h a (List.mem_cons_self a t)]
    simpa using ih fun s hs => h s (List.mem_cons_of_mem a hs)

theorem filter_check_naming_eq_nil (p : Suggestion → Bool) (tree : Ast) (code : String)
    (h1 : ∀ nm l, p (fnNamingSugg nm l) = false)
    (h2 : ∀ nm l, p (clsNamingSugg nm l) = false)
    (h3 : ∀ nm l, p (readabilitySugg nm l) = false) :
    (check_naming_conventions tree code).filter p = [] := by
  refine filter_eq_nil_of _ _ fun s hs => ?_
  obtain ⟨n, -, hn⟩ := mem_concatMap.mp hs
  rcases mem_namingSuggs hn with ⟨nm, l, rfl⟩ | ⟨nm, l, rfl⟩ | ⟨nm, l, rfl⟩
  exacts [h1 nm l, h2 nm l, h3 nm l]

theorem filter_check_complexity_eq_nil (p : Suggestion → Bool) (tree : Ast)
    (h1 : ∀ nm c l, p (highComplexitySugg nm c l) = false)
    (h2 : ∀ nm len l, p (longFunctionSugg nm len l) = false) :
    (check_code_complexity tree).filter p = [] := by
  refine filter_eq_nil_of _ _ fun s hs => ?_
  obtain ⟨n, -, hn⟩ := mem_concatMap.mp hs
  rcases mem_complexitySuggs hn with ⟨nm, c, l, rfl⟩ | ⟨nm, len, l, rfl⟩
  exacts [h1 nm c l, h2 nm len l]

theorem filter_check_best_eq_nil (p : Suggestion → Bool) (tree : Ast) (code : String)
    (h1 : ∀ l, p (bareExceptSugg l) = false)
    (h2 : ∀ nm l, p (mutableDefaultSugg nm l) = false)
    (h3 : ∀ l, p (globalStmtSugg l) = false) :
    (check_best_practices tree code).filter p = [] := by
  refine filter_eq_nil_of _ _ fun s hs => ?_
  obtain ⟨n, -, hn⟩ := mem_concatMap.mp hs
  rcases mem_bestPracticeSuggs hn with ⟨l, rfl⟩ | ⟨nm, l, rfl⟩ | ⟨l, rfl⟩
  exacts [h1 l, h2 nm l, h3 l]

theorem filter_check_perf_eq_nil (p : Suggestion → Bool) (tree : Ast) (code : String)
    (h1 : ∀ l, p (loopConcatSugg l) = false) :
    (check_performance_issues tree code).filter p = [] := by
  refine filter_eq_nil_of _ _ fun s hs => ?_
  obtain ⟨n, -, hn⟩ := mem_concatMap.mp hs
  obtain ⟨l, rfl⟩ := mem_perfSuggs hn
  exact h1 l

theorem filter_check_style_eq_nil (p : Suggestion → Bool) (code : String)
    (h1 : ∀ i, p (longLineSugg i) = false)
    (h2 : ∀ i line, p (trailingWsSugg i line) = false)
    (h3 : ∀ i line, p (missingSpacesSugg i line) = false)
    (h4 : ∀ i line, p (multiStatementSugg i line) = false) :
    (check_style_issues code).filter p = [] := by
  refine filter_eq_nil_of _ _ fun s hs => ?_
  obtain ⟨q, -, hq⟩ := mem_concatMap.mp hs
  rcases mem_styleLineSuggs hq with rfl | rfl | rfl | rfl
  exacts [h1 q.1, h2 q.1 q.2, h3 q.1 q.2, h4 q.1 q.2]

/-! ### C2: the high-complexity flag -/

/-- The `type=complexity, severity=high` record test of claim C2. -/
def isHighComplexityFlag (s : Suggestion) : Bool :=
  s.type == "complexity" && s.severity == "high"

/-- Exactly one high-complexity suggestion per function definition in the walk
whose cyclomatic complexity exceeds 10; nothing for any other node. -/
def highComplexityFlags (tree : Ast) : List Suggestion :=
  concatMap (fun n =>
    match n with
    | .functionDef nm ds b l e =>
      if calculate_complexity (.functionDef nm ds b l e) > 10 then
        [highComplexitySugg nm (calculate_complexity (.functionDef nm ds b l e)) l]
      else []
    | _ => []) (walk tree)

theorem isHighComplexityFlag_high (nm : String) (c : Int) (l : Nat) :
    isHighComplexityFlag (highComplexitySugg nm c l) = true := rfl

theorem isHighComplexityFlag_med (nm : String) (len : Int) (l : Nat) :
    isHighComplexityFlag (longFunctionSugg nm len l) = false := rfl

theorem filter_complexitySuggs_high (n : Ast) :
    (complexitySuggs n).filter isHighComplexityFlag =
    (match n with
     | .functionDef nm ds b l e =>
       if calculate_complexity (.functionDef nm ds b l e) > 10 then
         [highComplexitySugg nm (calculate_complexity (.functionDef nm ds b l e)) l]
       else []
     | _ => []) := by
  cases n <;> simp only [complexitySuggs]
  case functionDef nm ds b l e =>
    rw [List.filter_append]
    split_ifs <;>
      simp [List.filter, isHighComplexityFlag_high, isHighComplexityFlag_med]
  all_goals rfl

theorem filter_check_code_complexity (tree : Ast) :
    (check_code_complexity tree).filter isHighComplexityFlag = highComplexityFlags tree := by
  unfold check_code_complexity highComplexityFlags
  rw [filter_concatMap]
  exact concatMap_congr filter_complexitySuggs_high _

/-- The `complex_function` of the repository's complexity test: six nested
`if` statements (complexity 7). -/
def complexFunctionAst : Ast :=
  .functionDef "complex_function" []
    [.ifStmt (.compare (.name "x") [.constant "0"])
      [.ifStmt (.compare (.name "y") [.constant "0"])
        [.ifStmt (.compare (.name "z") [.constant "0"])
          [.ifStmt (.compare (.name "x") [.name "y"])
            [.ifStmt (.compare (.name "y") [.name "z"])
              [.ifStmt (.compare (.name "z") [.constant "1"])
                [.returnStmt (some (.constant "True")) 9]
                [] 8]
              [] 7]
            [] 6]
          [] 5]
        [] 4]
      [] 3,
     .returnStmt (some (.constant "False")) 10] 2 10

/-- The source text of `complexFunctionAst`. -/
def complexFunctionCode : String :=
  "\ndef complex_function(x, y, z):\n    if x > 0:\n        if y > 0:\n            if z > 0:\n                if x > y:\n                    if y > z:\n                        if z > 1:\n                            return True\n    return False\n"

/-- C2: a `type=complexity, severity=high` suggestion appears in the output of
`analyze` exactly once for every function definition whose computed complexity
(1, plus 1 per `if`/`while`/`for`/`except` handler anywhere in the subtree,
plus N-1 per boolean combination of N operands) exceeds 10, and never
otherwise; in particular the six-nested-`if` function has complexity 7 and
produces no high-severity complexity flag. -/
theorem analyze_high_complexity_iff_over_ten :
    (∀ (tree : Ast) (code : String),
      (analyze (.ok tree) code).filter isHighComplexityFlag = highComplexityFlags tree) ∧
    (∀ (nm : String) (c : Int) (l : Nat),
      (highComplexitySugg nm c l).type = "complexity" ∧
      (highComplexitySugg nm c l).severity = "high") ∧
    calculate_complexity complexFunctionAst = 7 ∧
    (analyze (.ok (.module [complexFunctionAst])) complexFunctionCode).filter
      isHighComplexityFlag = [] := by
  refine ⟨fun tree code => ?_, fun nm c l => ⟨rfl, rfl⟩, by decide, by decide⟩
  show (runChecks tree code).filter isHighComplexityFlag = highComplexityFlags tree
  unfold runChecks
  simp only [List.filter_append]
  rw [filter_check_naming_eq_nil _ _ _ (fun nm l => rfl) (fun nm l => rfl) (fun nm l => rfl),
    filter_check_code_complexity,
    filter_check_best_eq_nil _ _ _ (fun l => rfl) (fun nm l => rfl) (fun l => rfl),
    filter_check_perf_eq_nil _ _ _ (fun l => rfl),
    filter_check_style_eq_nil _ _ (fun i => rfl) (fun i line => rfl) (fun i line => rfl)
      (fun i line => rfl)]
  simp

/-! ### C4: one performance suggestion per flagged loop -/

/-- The `type=performance` record test of claim C4. -/
def isPerformanceFlag (s : Suggestion) : Bool := s.type == "performance"

/-- A `for` loop whose body contains two augmented `+=` assignments to simple
variables (only one performance suggestion must result). -/
def twoAugAssignLoopTree : Ast :=
  .module [.forStmt (.name "i") (.name "xs")
    [.augAssign (.name "acc") .add (.name "i") 2,
     .augAssign (.name "total") .add (.name "i") 3] [] 1]

/-- The source text of `twoAugAssignLoopTree`. -/
def twoAugAssignLoopCode : String := "for i in xs:\n    acc += i\n    total += i"

theorem isPerformanceFlag_loop (l : Nat) : isPerformanceFlag (loopConcatSugg l) = true := rfl

theorem filter_check_perf_eq_self (tree : Ast) (code : String) :
    (check_performance_issues tree code).filter isPerformanceFlag =
      check_performance_issues tree code := by
  refine filter_eq_self_of _ _ fun s hs => ?_
  obtain ⟨n, -, hn⟩ := mem_concatMap.mp hs
  obtain ⟨l, rfl⟩ := mem_perfSuggs hn
  exact isPerformanceFlag_loop l

/-- C4: the `type=performance` suggestions of `analyze` are exactly the output
of the performance checker, which emits one `severity=medium` suggestion — at
the loop's line — per `for`/`while` node whose subtree contains an augmented
`+=` assignment targeting a simple variable, independently of how many such
assignments the loop contains (the inner scan stops at the first match);
concretely, a loop with two such assignments yields exactly one suggestion. -/
theorem analyze_performance_once_per_loop :
    (∀ (tree : Ast) (code : String),
      (analyze (.ok tree) code).filter isPerformanceFlag =
        check_performance_issues tree code) ∧
    (∀ (t it : Ast) (b oe : List Ast) (l : Nat),
      perfSuggs (.forStmt t it b oe l) =
        if (walk (.forStmt t it b oe l)).any isAugAddToName then [loopConcatSugg l]
        else []) ∧
    (∀ (te : Ast) (b oe : List Ast) (l : Nat),
      perfSuggs (.whileStmt te b oe l) =
        if (walk (.whileStmt te b oe l)).any isAugAddToName then [loopConcatSugg l]
        else []) ∧
    (∀ l : Nat, (loopConcatSugg l).type = "performance" ∧
      (loopConcatSugg l).severity = "medium" ∧ (loopConcatSugg l).line = some l) ∧
    ((analyze (.ok twoAugAssignLoopTree) twoAugAssignLoopCode).filter
      isPerformanceFlag).length = 1 := by
  refine ⟨fun tree code => ?_, fun t it b oe l => rfl, fun te b oe l => rfl,
    fun l => ⟨rfl, rfl, rfl⟩, by decide⟩
  show (runChecks tree code).filter isPerformanceFlag = check_performance_issues tree code
  unfold runChecks
  simp only [List.filter_append]
  rw [filter_check_naming_eq_nil _ _ _ (fun nm l => rfl) (fun nm l => rfl) (fun nm l => rfl),
    filter_check_complexity_eq_nil _ _ (fun nm c l => rfl) (fun nm len l => rfl),
    filter_check_best_eq_nil _ _ _ (fun l => rfl) (fun nm l => rfl) (fun l => rfl),
    filter_check_perf_eq_self,
    filter_check_style_eq_nil _ _ (fun i => rfl) (fun i line => rfl) (fun i line => rfl)
      (fun i line => rfl)]
  simp

/-! ### Membership into the full analysis from one checker's output -/

theorem mem_analyze_of_naming {s : Suggestion} {tree : Ast} {code : String}
    (h : s ∈ check_naming_conventions tree code) : s ∈ analyze (.ok tree) code := by
  show s ∈ runChecks tree code
  unfold runChecks
  exact List.mem_append_left _ (List.mem_append_left _ (List.mem_append_left _
    (List.mem_append_left _ h)))

theorem mem_analyze_of_complexity {s : Suggestion} {tree : Ast} {code : String}
    (h : s ∈ check_code_complexity tree) : s ∈ analyze (.ok tree) code := by
  show s ∈ runChecks tree code
  unfold runChecks
  exact List.mem_append_left _ (List.mem_append_left _ (List.mem_append_left _
    (List.mem_append_right _ h)))

theorem mem_analyze_of_best {s : Suggestion} {tree : Ast} {code : String}
    (h : s ∈ check_best_practices tree code) : s ∈ analyze (.ok tree) code := by
  show s ∈ runChecks tree code
  unfold runChecks
  exact List.mem_append_left _ (List.mem_append_left _ (List.mem_append_right _ h))

theorem mem_analyze_of_style {s : Suggestion} {tree : Ast} {code : String}
    (h : s ∈ check_style_issues code) : s ∈ analyze (.ok tree) code := by
  show s ∈ runChecks tree code
  unfold runChecks
  exact List.mem_append_right _ h

/-- C5: every function definition whose name fails `^[a-z_][a-z0-9_]*$` and
does not start with a double underscore yields a `style/medium` suggestion
whose message names the function and contains "snake_case", and whose
suggested fix is the mechanical snake_case conversion (an underscore inserted
before each non-initial uppercase letter, everything lowercased) followed by
an opening parenthesis. -/
theorem analyze_snake_case_naming :
    ∀ (tree : Ast) (code nm : String) (ds b : List Ast) (l e : Nat),
      Ast.functionDef nm ds b l e ∈ walk tree →
      matchesSnakeCase nm = false →
      pyStartsWith nm "__" = false →
      fnNamingSugg nm l ∈ analyze (.ok tree) code ∧
      (fnNamingSugg nm l).type = "style" ∧
      (fnNamingSugg nm l).severity = "medium" ∧
      containsStr (fnNamingSugg nm l).message nm = true ∧
      containsStr (fnNamingSugg nm l).message "snake_case" = true ∧
      (fnNamingSugg nm l).suggested_fix = some ("def " ++ snake_case_name nm ++ "(") ∧
      containsStr ("def " ++ snake_case_name nm ++ "(") (snake_case_name nm ++ "(") = true := by
  intro tree code nm ds b l e hmem hsnake hdunder
  refine ⟨?_, rfl, rfl, ?_, ?_, rfl, ?_⟩
  · apply mem_analyze_of_naming
    unfold check_naming_conventions
    exact mem_concatMap.mpr ⟨.functionDef nm ds b l e, hmem,
      by simp [namingSuggs, hsnake, hdunder]⟩
  · show hasInfixChars nm.data
      ("Function '" ++ nm ++ "' should use snake_case naming (PEP 8)").data = true
    simp only [String.data_append, List.append_assoc]
    exact hasInfixChars_middle _ _ _
  · show hasInfixChars "snake_case".data
      ("Function '" ++ nm ++ "' should use snake_case naming (PEP 8)").data = true
    simp only [String.data_append, List.append_assoc]
    rw [← List.append_assoc]
    exact hasInfixChars_append_left _ (by decide)
  · show hasInfixChars (snake_case_name nm ++ "(").data
      ("def " ++ (snake_case_name nm ++ "(")).data = true
    simp only [String.data_append]
    exact hasInfixChars_suffix _ _

/-- The module holding only `def BadFunctionName(): pass`. -/
def badFunctionTree : Ast := .module [.functionDef "BadFunctionName" [] [.passStmt 2] 1 2]

/-- Witness for C5 at the repository test's `BadFunctionName` input. -/
theorem analyze_snake_case_naming_witness :
    fnNamingSugg "BadFunctionName" 1 ∈
      analyze (.ok badFunctionTree) "def BadFunctionName():\n    pass" ∧
    (fnNamingSugg "BadFunctionName" 1).type = "style" ∧
    (fnNamingSugg "BadFunctionName" 1).severity = "medium" ∧
    containsStr (fnNamingSugg "BadFunctionName" 1).message "BadFunctionName" = true ∧
    containsStr (fnNamingSugg "BadFunctionName" 1).message "snake_case" = true ∧
    (fnNamingSugg "BadFunctionName" 1).suggested_fix =
      some ("def " ++ snake_case_name "BadFunctionName" ++ "(") ∧
    containsStr ("def " ++ snake_case_name "BadFunctionName" ++ "(")
      (snake_case_name "BadFunctionName" ++ "(") = true :=
  analyze_snake_case_naming badFunctionTree "def BadFunctionName():\n    pass"
    "BadFunctionName" [] [.passStmt 2] 1 2
    (by simp [badFunctionTree, walk, walkList]) (by decide) (by decide)

/-- C6: every mutable-literal default (list, mapping or set literal) among a
function definition's parameter defaults yields a `best_practice/high`
suggestion naming the function, whose fix demonstrates the `None`-sentinel
idiom. -/
theorem analyze_mutable_default_flagged :
    ∀ (tree : Ast) (code nm : String) (ds b : List Ast) (l e : Nat) (d : Ast),
      Ast.functionDef nm ds b l e ∈ walk tree →
      d ∈ ds →
      isMutableLiteral d = true →
      mutableDefaultSugg nm l ∈ analyze (.ok tree) code ∧
      (mutableDefaultSugg nm l).type = "best_practice" ∧
      (mutableDefaultSugg nm l).severity = "high" ∧
      containsStr (mutableDefaultSugg nm l).message nm = true ∧
      (mutableDefaultSugg nm l).suggested_fix =
        some "def function_name(param=None):\n    if param is None:\n        param = []" ∧
      containsStr ((mutableDefaultSugg nm l).suggested_fix.getD "") "None" = true := by
  intro tree code nm ds b l e d hmem hd hmut
  refine ⟨?_, rfl, rfl, ?_, rfl, ?_⟩
  rotate_right
  · show containsStr
      "def function_name(param=None):\n    if param is None:\n        param = []" "None" = true
    decide
  · apply mem_analyze_of_best
    unfold check_best_practices
    refine mem_concatMap.mpr ⟨.functionDef nm ds b l e, hmem, ?_⟩
    show mutableDefaultSugg nm l ∈ bestPracticeSuggs (.functionDef nm ds b l e)
    simp only [bestPracticeSuggs]
    exact mem_concatMap.mpr ⟨d, hd, by simp [hmut]⟩
  · show hasInfixChars nm.data
      ("Avoid mutable default arguments in function '" ++ nm ++ "'. Use None instead.").data = true
    simp only [String.data_append, List.append_assoc]
    exact hasInfixChars_middle _ _ _

/-- The module holding only `def f(x=[]): pass`. -/
def mutableDefaultTree : Ast := .module [.functionDef "f" [.listLit []] [.passStmt 1] 1 1]

/-- Witness for C6 at `def f(x=[]): pass`. -/
theorem analyze_mutable_default_flagged_witness :
    mutableDefaultSugg "f" 1 ∈ analyze (.ok mutableDefaultTree) "def f(x=[]): pass" ∧
    (mutableDefaultSugg "f" 1).type = "best_practice" ∧
    (mutableDefaultSugg "f" 1).severity = "high" ∧
    containsStr (mutableDefaultSugg "f" 1).message "f" = true ∧
    (mutableDefaultSugg "f" 1).suggested_fix =
      some "def function_name(param=None):\n    if param is None:\n        param = []" ∧
    containsStr ((mutableDefaultSugg "f" 1).suggested_fix.getD "") "None" = true :=
  analyze_mutable_default_flagged mutableDefaultTree "def f(x=[]): pass" "f"
    [.listLit []] [.passStmt 1] 1 1 (.listLit [])
    (by simp [mutableDefaultTree, walk, walkList])
    (List.mem_singleton.mpr rfl) rfl

/-! ### C7: the missing-spaces-around-`=` style check -/

/-- Modelled from the spec: claim C7's precondition — the line contains a bare
`=` (one that is not part of `==`, `!=`, `<=`, `>=`, `+=`, `-=`, `*=`, `/=`)
adjacent to a word character without surrounding spaces.  Used only to state
the original claim at the counterexample input; the analyzer's own condition
is in `styleLineSuggs`. -/
def specBareUnspacedEq : List Char → Bool
  | a :: b :: c :: rest =>
    (b == '=' &&
      !(a == '=' || a == '!' || a == '<' || a == '>' || a == '+' || a == '-' ||
        a == '*' || a == '/') &&
      !(c == '=') && !(isPySpaceChar a) && !(isPySpaceChar c) &&
      (isWordChar a || isWordChar c)) ||
    specBareUnspacedEq (b :: c :: rest)
  | _ => false

/-- `nn+=1; mm=2` — a line holding both an augmented `+=` and a bare
unspaced `=`. -/
def augThenAssignTree : Ast :=
  .module [.augAssign (.name "nn") .add (.constant "1") 1,
           .assign [.name "mm"] (.constant "2") 1]

/-- `xx=1; yy=2` — a line holding two bare unspaced `=` occurrences. -/
def twoAssignTree : Ast :=
  .module [.assign [.name "xx"] (.constant "1") 1,
           .assign [.name "yy"] (.constant "2") 1]

/-- Counterexample to C7 as stated.  First input: `nn+=1; mm=2` has a bare
unspaced `=` (in `mm=2`), yet the analyzer emits no missing-spaces suggestion,
because the line also contains `+=` and the whole line is skipped whenever any
compound operator appears anywhere in it.  Second input: `xx=1; yy=2` is
flagged, but the suggested fix spaces *every* bare `=` (and is stripped), not
only the first one as the claim states. -/
theorem analyze_bare_eq_claim_counterexample :
    (specBareUnspacedEq "nn+=1; mm=2".data = true ∧
      (analyze (.ok augThenAssignTree) "nn+=1; mm=2").all
        (fun s => s.message != "Missing spaces around assignment operator (PEP 8)") = true) ∧
    (specBareUnspacedEq "xx=1; yy=2".data = true ∧
      missingSpacesSugg 1 "xx=1; yy=2".data ∈ analyze (.ok twoAssignTree) "xx=1; yy=2" ∧
      (missingSpacesSugg 1 "xx=1; yy=2".data).suggested_fix = some "xx = 1; yy = 2" ∧
      some "xx = 1; yy = 2" ≠ some "xx = 1; yy=2") := by decide

/-- C7 (amended): for every line that contains `=`, contains none of the
two-character operators `==`, `!=`, `<=`, `>=`, `+=`, `-=`, `*=`, `/=`
anywhere, and matches `\w=[^=\s]|[^=\s]=\w`, the analyzer emits a
`style/low` suggestion whose fix is the line with ` = ` substituted for every
match of `(\w)=([^=\s])` and then every match of `([^=\s])=(\w)`, finally
stripped of surrounding whitespace. -/
theorem analyze_missing_spaces_amended :
    ∀ (tree : Ast) (code : String) (i : Nat) (line : List Char),
      (i, line) ∈ enumerateFrom 1 (splitOnChar '\n' code.data) →
      containsChar line '=' = true →
      lineHasCompoundOp line = false →
      eqPatternSearch line = true →
      missingSpacesSugg i line ∈ analyze (.ok tree) code ∧
      (missingSpacesSugg i line).type = "style" ∧
      (missingSpacesSugg i line).severity = "low" ∧
      (missingSpacesSugg i line).line = some i ∧
      (missingSpacesSugg i line).suggested_fix =
        some (String.mk (pyStripChars (subEqPat2 (subEqPat1 line)))) := by
  intro tree code i line henum heq hcomp hsearch
  refine ⟨?_, rfl, rfl, rfl, rfl⟩
  apply mem_analyze_of_style
  unfold check_style_issues
  refine mem_concatMap.mpr ⟨(i, line), henum, ?_⟩
  show missingSpacesSugg i line ∈ styleLineSuggs (i, line)
  simp [styleLineSuggs, heq, hcomp, hsearch]

/-- `x=1` as a module. -/
def eqLineTree : Ast := .module [.assign [.name "x"] (.constant "1") 1]

/-- Witness for the amended C7 at input `x=1`. -/
theorem analyze_missing_spaces_amended_witness :
    missingSpacesSugg 1 "x=1".data ∈ analyze (.ok eqLineTree) "x=1" ∧
    (missingSpacesSugg 1 "x=1".data).type = "style" ∧
    (missingSpacesSugg 1 "x=1".data).severity = "low" ∧
    (missingSpacesSugg 1 "x=1".data).line = some 1 ∧
    (missingSpacesSugg 1 "x=1".data).suggested_fix =
      some (String.mk (pyStripChars (subEqPat2 (subEqPat1 "x=1".data)))) :=
  analyze_missing_spaces_amended eqLineTree "x=1" 1 "x=1".data
    (by decide) (by decide) (by decide) (by decide)

/-! ### C8: the long-function check -/

/-- Modelled from the spec: the "source-line span" of a function occupying
source lines `lineno` through `end_lineno` inclusive — the number of lines it
covers.  Used only to state the original claim at the counterexample input;
the analyzer itself computes `end_lineno - lineno`. -/
def specLineSpan (lineno end_lineno : Nat) : Nat := end_lineno - lineno + 1

/-- A function occupying source lines 1 through 51 — 51 lines. -/
def fiftyOneLineFnTree : Ast := .module [.functionDef "spread_fn" [] [.passStmt 51] 1 51]

/-- Counterexample to C8 as stated: a function spanning 51 source lines
(lines 1-51) exceeds 50 lines, yet the analyzer emits no `complexity/medium`
suggestion, because it tests `end_lineno - lineno > 50` and `51 - 1 = 50`. -/
theorem analyze_line_span_claim_counterexample :
    specLineSpan 1 51 = 51 ∧ 50 < specLineSpan 1 51 ∧
    (analyze (.ok fiftyOneLineFnTree) "").all
      (fun s => !(s.type == "complexity" && s.severity == "medium")) = true := by decide

/-- C8 (amended): for every function definition with
`end_lineno - lineno > 50` (that is, spanning more than 51 source lines), the
analyzer emits a `complexity/medium` suggestion whose message names
`end_lineno - lineno` — one less than the number of lines the function
occupies. -/
theorem analyze_long_function_amended :
    ∀ (tree : Ast) (code nm : String) (ds b : List Ast) (l e : Nat),
      Ast.functionDef nm ds b l e ∈ walk tree →
      (50 : Int) < (e : Int) - (l : Int) →
      longFunctionSugg nm ((e : Int) - (l : Int)) l ∈ analyze (.ok tree) code ∧
      (longFunctionSugg nm ((e : Int) - (l : Int)) l).type = "complexity" ∧
      (longFunctionSugg nm ((e : Int) - (l : Int)) l).severity = "medium" ∧
      containsStr (longFunctionSugg nm ((e : Int) - (l : Int)) l).message
        (toString ((e : Int) - (l : Int))) = true := by
  intro tree code nm ds b l e hmem hspan
  refine ⟨?_, rfl, rfl, ?_⟩
  · apply mem_analyze_of_complexity
    unfold check_code_complexity
    refine mem_concatMap.mpr ⟨.functionDef nm ds b l e, hmem, ?_⟩
    show longFunctionSugg nm ((e : Int) - (l : Int)) l ∈
      complexitySuggs (.functionDef nm ds b l e)
    simp only [complexitySuggs]
    apply List.mem_append_right
    rw [if_pos hspan]
    exact List.mem_singleton.mpr rfl
  · show hasInfixChars (toString ((e : Int) - (l : Int))).data
      ("Function '" ++ nm ++ "' is too long (" ++ toString ((e : Int) - (l : Int)) ++
        " lines). Consider breaking it down.").data = true
    simp only [String.data_append, List.append_assoc]
    exact hasInfixChars_append_left _ (hasInfixChars_append_left _
      (hasInfixChars_append_left _ (hasInfixChars_of_isPrefix
        (isPrefixCharsB_self_append _ _))))

/-- A function occupying source lines 1 through 60. -/
def sixtyLineFnTree : Ast := .module [.functionDef "g" [] [.passStmt 2] 1 60]

/-- Witness for the amended C8 at a function spanning lines 1-60. -/
theorem analyze_long_function_amended_witness :
    longFunctionSugg "g" (((60 : Nat) : Int) - ((1 : Nat) : Int)) 1 ∈
      analyze (.ok sixtyLineFnTree) "" ∧
    (longFunctionSugg "g" (((60 : Nat) : Int) - ((1 : Nat) : Int)) 1).type = "complexity" ∧
    (longFunctionSugg "g" (((60 : Nat) : Int) - ((1 : Nat) : Int)) 1).severity = "medium" ∧
    containsStr (longFunctionSugg "g" (((60 : Nat) : Int) - ((1 : Nat) : Int)) 1).message
      (toString (((60 : Nat) : Int) - ((1 : Nat) : Int))) = true :=
  analyze_long_function_amended sixtyLineFnTree "" "g" [] [.passStmt 2] 1 60
    (by simp [sixtyLineFnTree, walk, walkList]) (by decide)
